import Mathlib

/-!
# AutoMCM orchestration core: a shallow embedding

This file embeds, in Lean 4, the data model and operations of the AutoMCM
orchestration core (provider factory, base agent, master agent / clone
registry, artifact store, and the retrying agent-service facade) and proves
the testable properties stated in the project specification.

Conventions used throughout:
* JavaScript strings are Lean `String`s; `Date.now()` timestamps are `Nat`
  oracle arguments; randomly generated identifiers are explicit arguments.
* JavaScript `null`/`undefined` string arguments are `Option String` with
  `none` for `null`/`undefined`.
* Asynchronous provider calls are modelled by explicit result arguments of
  type `Except String α` (`Except.error` for a thrown error).
* Numeric configuration values use `Nat` and `ℚ` (the source manipulates
  them only by copying and comparing, except for `Math.ceil` which is
  modelled with `Nat.ceil` on `ℚ`).
-/

/-- Uniform notification events emitted by the `AgentService` facade
(`this.emit(...)` calls in `agent-service.js`).  Log events are tracked by
their classification; message payloads are not modelled. -/
inductive SvcEvent where
  | phaseChange (phase : String)
  | logInfo
  | logSuccess
  | logWarning
  | logError
  | errorEvent
  | planningComplete
  | modelingComplete
  | writingComplete
  | artifactCreated (type : String) (name : String)
deriving DecidableEq, Repr

/-- Observable state of an `AgentService` facade instance: the current phase,
the running flag, and the stream of notification events emitted so far. -/
structure SvcState where
  currentPhase : String
  isRunning : Bool
  events : List SvcEvent
deriving DecidableEq, Repr

/-! ## ProviderFactory (`llm-providers.js`) -/

/-- The three concrete provider client families. -/
inductive ProviderKind where
  | claude
  | openai
  | gemini
deriving DecidableEq, Repr

/-- `ProviderFactory.createProvider`: resolves a provider identifier string,
lowercased, through the `switch` in `llm-providers.js`; unknown identifiers
throw `Unsupported LLM provider: ...`. -/
def createProvider (provider : String) : Except String ProviderKind :=
  let p := provider.toLower
  if p = "anthropic" ∨ p = "claude" then .ok .claude
  else if p = "openai" ∨ p = "gpt" then .ok .openai
  else if p = "google" ∨ p = "gemini" then .ok .gemini
  else .error ("Unsupported LLM provider: " ++ provider)

/-- `ProviderFactory.getSupportedProviders`. -/
def getSupportedProviders : List String :=
  ["anthropic", "claude", "openai", "gpt", "google", "gemini"]

/-! ## Provider configuration and the per-role override (`base-agent.js`) -/

/-- The effective provider configuration assembled by
`BaseAgent._initializeProvider` and handed to `ProviderFactory`. -/
structure ProviderConfig where
  provider : String
  apiKey : String
  baseUrl : String
  model : String
  maxTokens : Nat
  temperature : ℚ
deriving DecidableEq, Repr

/-- A role-specific override record (`llm.task_overrides.<mode>` in the YAML
configuration).  `none` models an absent or falsy (empty-string / zero)
field, matching the JavaScript `||` fallbacks. -/
structure TaskOverride where
  provider : Option String
  api_key : Option String
  base_url : Option String
  model : Option String
  max_tokens : Option Nat
  temperature : Option ℚ
deriving DecidableEq, Repr

/-- `BaseAgent._initializeProvider`: the override branch is taken only when a
task override exists and its `provider` field is set; in that branch
`provider`, `apiKey`, `baseUrl` and `model` fall back field-by-field to the
primary configuration, while `maxTokens` and `temperature` are copied from
the primary configuration unconditionally. -/
def initializeProvider (primaryConfig : ProviderConfig)
    (taskOverride : Option TaskOverride) : ProviderConfig :=
  match taskOverride with
  | some t =>
    if t.provider.isSome then
      { provider := t.provider.getD primaryConfig.provider
        apiKey := t.api_key.getD primaryConfig.apiKey
        baseUrl := t.base_url.getD primaryConfig.baseUrl
        model := t.model.getD primaryConfig.model
        maxTokens := primaryConfig.maxTokens
        temperature := primaryConfig.temperature }
    else primaryConfig
  | none => primaryConfig

/-! ## BaseAgent conversation and `sendMessage` (`base-agent.js`) -/

/-- One conversation message. -/
structure Message where
  role : String
  content : String
deriving DecidableEq, Repr

/-- Normalized provider response (`{message, usage, stopReason}`). -/
structure ProviderResponse where
  message : String
  inputTokens : Nat
  outputTokens : Nat
  stopReason : String
deriving DecidableEq, Repr

/-- `BaseAgent.sendMessage`: pushes the user message onto the conversation
history, performs the provider call (its outcome is the explicit
`providerResult` argument), and on success pushes the assistant reply; a
thrown provider error is re-thrown after the user message was already
appended.  Returns the call result together with the new history. -/
def sendMessage (conversationHistory : List Message) (userMessage : String)
    (providerResult : Except String ProviderResponse) :
    Except String ProviderResponse × List Message :=
  let afterUser := conversationHistory ++ [⟨"user", userMessage⟩]
  match providerResult with
  | .error e => (.error e, afterUser)
  | .ok r => (.ok r, afterUser ++ [⟨"assistant", r.message⟩])

/-! ## Clone registry (`master-agent.js`) -/

/-- One entry of the Orchestrator's clone registry
(`this.clones` in `master-agent.js`). -/
structure CloneEntry where
  id : String
  mode : String
  task : String
  status : String
deriving DecidableEq, Repr

/-- `MasterAgent.spawnClone`: appends a registry entry with identifier
`` `${mode}-${Date.now()}` `` and status `running`.  `now` is the
`Date.now()` value at the time of the call. -/
def spawnClone (clones : List CloneEntry) (mode task : String) (now : Nat) :
    List CloneEntry :=
  clones ++ [⟨mode ++ "-" ++ toString now, mode, task, "running"⟩]

/-- A sequence of `spawnClone` calls, one per `(mode, task, Date.now())`
triple. -/
def spawnMany (clones : List CloneEntry) :
    List (String × String × Nat) → List CloneEntry
  | [] => clones
  | (mode, task, now) :: rest => spawnMany (spawnClone clones mode task now) rest

/-! ## ArtifactStore (`artifact-store.js`) -/

/-- One record of the artifact index (`this.artifacts` entries). -/
structure ArtifactEntry where
  id : String
  name : String
  type : String
  path : String
  description : String
  generatedBy : String
  metadata : List (String × String)
  timestamp : String
  version : Nat
deriving DecidableEq, Repr

/-- The `findIndex` / update-in-place / `push` branch of
`ArtifactStore.register`: the first entry whose `path` equals the new
entry's `path` is replaced in place by the new entry carrying
`version := previous.version + 1` and the previous `id`; if no entry
matches, the new entry is appended unchanged. -/
def registerGo (entry : ArtifactEntry) :
    List ArtifactEntry → List ArtifactEntry × ArtifactEntry
  | [] => ([entry], entry)
  | a :: rest =>
    if a.path = entry.path then
      let updated := { entry with version := a.version + 1, id := a.id }
      (updated :: rest, updated)
    else
      let r := registerGo entry rest
      (a :: r.1, r.2)

/-- `ArtifactStore.register`: builds a fresh entry with `version := 1`, the
generated id (`genId` models `this._generateId()`) and the current timestamp,
then updates-in-place or appends by storage path.  Returns the new index and
the stored entry. -/
def register (artifacts : List ArtifactEntry)
    (name type path description generatedBy : String)
    (metadata : List (String × String)) (genId timestamp : String) :
    List ArtifactEntry × ArtifactEntry :=
  registerGo ⟨genId, name, type, path, description, generatedBy, metadata,
    timestamp, 1⟩ artifacts

/-- On-disk files of the workspace, as an association list from path to
content (`fs.writeFile` replaces the content stored under a path). -/
def fsWrite (files : List (String × String)) (path content : String) :
    List (String × String) :=
  match files with
  | [] => [(path, content)]
  | (q, d) :: rest =>
    if q = path then (path, content) :: rest else (q, d) :: fsWrite rest path content

/-- In-memory state of one `ArtifactStore`: the on-disk files and the index. -/
structure StoreState where
  files : List (String × String)
  artifacts : List ArtifactEntry
deriving DecidableEq, Repr

/-- The argument record of `ArtifactStore.saveArtifact`. -/
structure SaveBody where
  name : String
  type : String
  content : String
  description : String
  generatedBy : String
  metadata : List (String × String)
deriving DecidableEq, Repr

/-- `ArtifactStore.saveArtifact`: writes the content to the name-derived path
under the artifacts directory (`artifactsPath`), registers the artifact, and
emits an `artifact-created` event.  `genId` and `timestamp` model
`this._generateId()` and `new Date().toISOString()` inside `register`. -/
def saveArtifact (st : StoreState) (artifactsPath : String) (body : SaveBody)
    (genId timestamp : String) : StoreState × ArtifactEntry × List SvcEvent :=
  let artifactPath := artifactsPath ++ "/" ++ body.name
  let files' := fsWrite st.files artifactPath body.content
  let r := register st.artifacts body.name body.type artifactPath
    body.description body.generatedBy body.metadata genId timestamp
  (⟨files', r.1⟩, r.2, [.artifactCreated body.type body.name])

/-! ## Master agent: modeling-phase guard (`master-agent.js`) -/

/-- The plan guard of `MasterAgent.executeModelingPhase` and
`AgentService.executeModelingPhase`: a plan is rejected when it is
`null`/`undefined` (`none`), the empty string (falsy), or the literal
string `"null"`. -/
def planInvalid : Option String → Bool
  | none => true
  | some s => s == "" || s == "null"

/-- Effects observable during `MasterAgent.executeModelingPhase`: whether
`this.phase = 'modeling'` was executed, and how many clones were spawned,
provider calls issued and artifacts saved. -/
structure MTrace where
  phaseSet : Bool
  clonesSpawned : Nat
  providerCalls : Nat
  artifactSaves : Nat
deriving DecidableEq, Repr

/-- `MasterAgent.executeModelingPhase`: the plan guard throws
`Invalid plan received. Plan is null or empty.` before `this.phase` is set,
before the modeler clone is spawned, and before any provider call or
artifact save.  `rest` abstracts the entire body after the guard (phase
assignment, clone spawn, provider calls, best-effort experiment /
visualization / sensitivity steps and their artifact saves) together with
its effect trace. -/
def masterModelingPhase (approvedPlan : Option String)
    (rest : Except String String × MTrace) : Except String String × MTrace :=
  if planInvalid approvedPlan then
    (.error "Invalid plan received. Plan is null or empty.", ⟨false, 0, 0, 0⟩)
  else rest

/-! ## Fan-out/fan-in: `MasterAgent.executeParallel` -/

/-- One task descriptor passed to `executeParallel`. -/
structure PTask where
  mode : String
  task : String
  message : String
deriving DecidableEq, Repr

/-- One element of the fan-in result list (`{mode, task, result}`). -/
structure PTaskResult where
  mode : String
  task : String
  result : String
deriving DecidableEq, Repr

/-- Whether an `Except` value is a success. -/
def exceptOk : Except String String → Bool
  | .ok _ => true
  | .error _ => false

/-- Body of `MasterAgent.executeParallel` over the task list.  The `.map`
callback bodies start synchronously in input order, so `spawnClone` appends
registry entries in input order; `outcome i` is the settlement of the `i`-th
clone's `sendMessage` (`times i` its spawn-time `Date.now()`).  The status
update to `completed` runs only after a successful `await`, so a failed task
leaves its entry `running`.  `Promise.all` collects fulfilled values in
input order and rejects if any task rejects (the model reports the error of
the least-index failing task). -/
def executeParallelGo (outcome : Nat → Except String String)
    (times : Nat → Nat) (i : Nat) :
    List PTask → List CloneEntry × Except String (List PTaskResult)
  | [] => ([], .ok [])
  | t :: rest =>
    let entry : CloneEntry :=
      { id := t.mode ++ "-" ++ toString (times i)
        mode := t.mode
        task := t.task
        status := if exceptOk (outcome i) then "completed" else "running" }
    let r := executeParallelGo outcome times (i + 1) rest
    (entry :: r.1,
      match outcome i, r.2 with
      | .ok v, .ok rs => .ok (⟨t.mode, t.task, v⟩ :: rs)
      | .error e, _ => .error e
      | .ok _, .error e => .error e)

/-- `MasterAgent.executeParallel`: fans out the tasks from the current clone
registry and returns the updated registry plus the fan-in result. -/
def executeParallel (clones : List CloneEntry) (tasks : List PTask)
    (outcome : Nat → Except String String) (times : Nat → Nat) :
    List CloneEntry × Except String (List PTaskResult) :=
  let r := executeParallelGo outcome times 0 tasks
  (clones ++ r.1, r.2)

/-! ## Paper completeness validation (`master-agent.js`) -/

/-- The ASCII whitespace characters matched by the JavaScript regex `\s`
(the source documents are ASCII; Unicode space classes are not modelled). -/
def isWsChar (c : Char) : Bool :=
  c = ' ' || c = '\t' || c = '\n' || c = '\r' || c = '\x0b' || c = '\x0c'

/-- JavaScript `str.split(/\s+/)`: splits at maximal whitespace runs,
keeping the empty fragments produced by leading/trailing separators
(`"".split` yields `[""]`). -/
def jsSplitWsAux : List Char → List Char → List String
  | [], current => [String.mk current.reverse]
  | c :: rest, current =>
    if isWsChar c then
      String.mk current.reverse :: jsSplitWsAux (rest.dropWhile isWsChar) []
    else
      jsSplitWsAux rest (c :: current)
termination_by l _ => l.length
decreasing_by
  · have := (List.dropWhile_suffix (l := rest) isWsChar).length_le
    simp only [List.length_cons]
    omega
  · simp only [List.length_cons]
    omega

/-- `latexContent.split(/\s+/).length`, the word count used by
`_validatePaperCompleteness`. -/
def wordCountJs (s : String) : Nat :=
  (jsSplitWsAux s.data []).length

/-- Number of non-overlapping occurrences of `pat` in a character list, as
counted by JavaScript `str.match(/pat/g).length`. -/
def countOccur (pat : List Char) : List Char → Nat
  | [] => 0
  | c :: rest =>
    if pat.isPrefixOf (c :: rest) then
      1 + countOccur pat (rest.drop (pat.length - 1))
    else
      countOccur pat rest
termination_by l => l.length
decreasing_by
  · have := List.length_drop (pat.length - 1) rest
    simp only [List.length_cons]
    omega
  · simp only [List.length_cons]
    omega

/-- Characters matched by the JavaScript regex `.` (no `s` flag): anything
except a line terminator. -/
def isDotChar (c : Char) : Bool :=
  !(c = '\n' || c = '\r')

/-- Scans for a `\x7d` reachable through regex-`.` characters (the trailing
`.*\}` of the section-heading patterns). -/
def findCloseAfter : List Char → Bool
  | [] => false
  | c :: rest =>
    if c = '\x7d' then true
    else if isDotChar c then findCloseAfter rest
    else false

/-- Scans for the keyword `kw` reachable through regex-`.` characters and
followed by `.*\}` (the `.*KW.*\}` tail of the section-heading patterns). -/
def findKwThenClose (kw : List Char) : List Char → Bool
  | [] => false
  | c :: rest =>
    if kw.isPrefixOf (c :: rest) && findCloseAfter ((c :: rest).drop kw.length) then
      true
    else if isDotChar c then findKwThenClose kw rest
    else false

/-- The literal `\section\x7b` opening every alternative of the
section-heading regex. -/
def secOpen : List Char := "\\section\x7b".data

/-- Existence of a match of `\\section\{.*KW.*\}` for any keyword in `kws`,
anywhere in the document. -/
def sectionKwSearch (kws : List (List Char)) : List Char → Bool
  | [] => false
  | c :: rest =>
    (secOpen.isPrefixOf (c :: rest) &&
      kws.any (fun kw => findKwThenClose kw ((c :: rest).drop secOpen.length)))
    || sectionKwSearch kws rest

/-- The `hasExperimentalSection` test of `_validatePaperCompleteness`:
`/\\section\{.*[Ee]xperiment.*\}|\\section\{.*[Rr]esult.*\}|\\section\{.*[Vv]alidation.*\}/`. -/
def hasExperimentalSectionJs (s : String) : Bool :=
  sectionKwSearch
    ["experiment".data, "Experiment".data, "result".data, "Result".data,
     "validation".data, "Validation".data] s.data

/-- The record returned by `MasterAgent._validatePaperCompleteness`. -/
structure PaperValidation where
  estimatedPages : Nat
  figureCount : Nat
  tableCount : Nat
  equationCount : Nat
  sectionCount : Nat
  hasExperimentalSection : Bool
  isComplete : Bool
deriving DecidableEq, Repr

/-- `MasterAgent._validatePaperCompleteness`: estimates the page count as
`Math.ceil(wordCount / 450)`, counts `figure`/`table`/`equation`
environments and `\section\x7b` headings, tests for an
experimental/results/validation section heading, and judges the paper
complete iff pages ≥ 12, figures ≥ 4 and such a heading exists. -/
def validatePaperCompleteness (latexContent : String) : PaperValidation :=
  let wordCount := wordCountJs latexContent
  let estimatedPages := Nat.ceil ((wordCount : ℚ) / 450)
  let figureCount := countOccur "\\begin\x7bfigure\x7d".data latexContent.data
  let tableCount := countOccur "\\begin\x7btable\x7d".data latexContent.data
  let equationCount := countOccur "\\begin\x7bequation\x7d".data latexContent.data
  let sectionCount := countOccur "\\section\x7b".data latexContent.data
  let hasExperimentalSection := hasExperimentalSectionJs latexContent
  { estimatedPages, figureCount, tableCount, equationCount, sectionCount,
    hasExperimentalSection,
    isComplete := decide (estimatedPages ≥ 12) && decide (figureCount ≥ 4)
      && hasExperimentalSection }

/-- Steps 3–4 of `MasterAgent.executeWritingPhase`: validate the saved
document; when validation falls short (`estimatedPages < 12 ||
figureCount < 4 || !hasExperimentalSection`), a single expansion request is
issued and its (extracted) result unconditionally replaces the saved
document; otherwise the document is kept.  Returns the final document and
the number of expansion requests (the post-expansion re-validation only
logs, and there is no further iteration). -/
def writingValidationStep (savedLatex expandedLatex : String) : String × Nat :=
  let validation := validatePaperCompleteness savedLatex
  if decide (validation.estimatedPages < 12) || decide (validation.figureCount < 4)
      || !validation.hasExperimentalSection then
    (expandedLatex, 1)
  else
    (savedLatex, 0)

/-! ## AgentService facade (`agent-service.js`) -/

/-- The retry loop of `AgentService.executePlanningPhase`, entered with a
given `attempt` counter (`0` at the call site).  `call k` is the settlement
of the `k`-th time-boxed `masterAgent.executePlanningPhase` invocation (a
timeout rejects like any other error).  Returns the surfaced result, the
number of underlying invocations made, and the emitted notification events.
Events echoed through the global console interception are not modelled. -/
def planningLoop (call : Nat → Except String String) (retries attempt : Nat) :
    Except String String × Nat × List SvcEvent :=
  if _h : attempt ≤ retries then
    let entryEvents : List SvcEvent :=
      [.phaseChange "planning", if attempt > 0 then .logWarning else .logInfo]
    match call attempt with
    | .ok result => (.ok result, 1, entryEvents ++ [.logSuccess, .planningComplete])
    | .error e =>
      if h2 : attempt + 1 > retries then
        (.error e, 1, entryEvents ++ [.logError, .errorEvent])
      else
        let r := planningLoop call retries (attempt + 1)
        (r.1, r.2.1 + 1, entryEvents ++ [.logWarning] ++ r.2.2)
  else
    -- with `attempt > retries` the `while` loop body never runs
    (.error "no attempts performed", 0, [])
termination_by retries + 1 - attempt
decreasing_by omega

/-- `AgentService.executePlanningPhase(problemStatement, retries = 2)`,
specialised to its notification/attempt behaviour. -/
def executePlanningPhaseSvc (call : Nat → Except String String)
    (retries : Nat := 2) : Except String String × Nat × List SvcEvent :=
  planningLoop call retries 0

/-- `AgentService.executeModelingPhase`: guards on workspace initialization
and on the plan before entering the `try` block, then performs exactly one
`masterAgent.executeModelingPhase` call (no retry).  Returns the surfaced
result, the facade state, the number of master-agent calls, and the master
agent's effect trace.  On success the source additionally emits
artifact-derived result events (`_emitModelingResults`), which are not
modelled; the `finally` block clears `isRunning` but leaves `currentPhase`
at `modeling`. -/
def serviceModelingPhase (hasMaster : Bool) (st : SvcState)
    (plan : Option String) (rest : Except String String × MTrace) :
    Except String String × SvcState × Nat × MTrace :=
  if !hasMaster then
    (.error "Workspace not initialized", st, 0, ⟨false, 0, 0, 0⟩)
  else if planInvalid plan then
    (.error "No plan provided. Please complete planning phase first.", st, 0,
      ⟨false, 0, 0, 0⟩)
  else
    let st1 : SvcState :=
      { currentPhase := "modeling", isRunning := true,
        events := st.events ++ [.phaseChange "modeling", .logInfo] }
    let r := masterModelingPhase plan rest
    match r.1 with
    | .ok v =>
      (.ok v,
        { st1 with
            events := st1.events ++ [.logSuccess, .modelingComplete]
            isRunning := false }, 1, r.2)
    | .error e =>
      (.error e,
        { st1 with
            events := st1.events ++ [.logError, .errorEvent]
            isRunning := false }, 1, r.2)

/-- `AgentService.executeWritingPhase`: guards on workspace initialization,
performs one `masterAgent.executeWritingPhase` call (its settlement is
`masterResult`), and in a `finally` block always clears `isRunning`, resets
`currentPhase` to `idle` and emits a `phase-change idle` notification —
on success and on failure alike. -/
def serviceWritingPhase (hasMaster : Bool) (st : SvcState)
    (masterResult : Except String String) : Except String String × SvcState :=
  if !hasMaster then
    (.error "Workspace not initialized", st)
  else
    let st1 : SvcState :=
      { currentPhase := "writing", isRunning := true,
        events := st.events ++ [.phaseChange "writing", .logInfo] }
    let st2 : SvcState :=
      match masterResult with
      | .ok _ => { st1 with events := st1.events ++ [.logSuccess, .writingComplete] }
      | .error _ => { st1 with events := st1.events ++ [.logError, .errorEvent] }
    (masterResult,
      { st2 with
          isRunning := false
          currentPhase := "idle"
          events := st2.events ++ [.phaseChange "idle"] })

/-! ## Concrete inputs used by counterexamples and witnesses -/

/-- A fully populated primary provider configuration. -/
def c2Primary : ProviderConfig :=
  ⟨"claude", "sk-primary", "https://api.anthropic.com", "claude-3", 8192, (7 : ℚ)/10⟩

/-- A role override that sets `provider`, `model`, `max_tokens` and
`temperature`. -/
def c2Override : TaskOverride :=
  ⟨some "openai", none, none, some "gpt-4", some 1024, some ((1 : ℚ)/5)⟩

/-! ## Lemmas and claim theorems -/

/-- After `registerGo`, the first index entry stored under the new entry's
path is exactly the returned entry. -/
lemma find?_registerGo (entry : ArtifactEntry) (arts : List ArtifactEntry) :
    (registerGo entry arts).1.find? (fun a => a.path == entry.path) =
      some (registerGo entry arts).2 := by
  induction arts with
  | nil => simp [registerGo, List.find?]
  | cons a rest ih =>
    by_cases h : a.path = entry.path
    · simp [registerGo, h, List.find?_cons_of_pos]
    · simp only [registerGo, h, if_false]
      rw [List.find?_cons_of_neg _ (by simpa using h)]
      exact ih

/-- Characterization of `registerGo` by the pre-existing entry under the same
path: updated in place (same length, `version + 1`, id preserved) when one
exists, appended with the fresh entry otherwise. -/
lemma registerGo_spec (entry : ArtifactEntry) (arts : List ArtifactEntry) :
    (∀ prev, arts.find? (fun a => a.path == entry.path) = some prev →
      (registerGo entry arts).2 =
        { entry with version := prev.version + 1, id := prev.id } ∧
      (registerGo entry arts).1.length = arts.length) ∧
    (arts.find? (fun a => a.path == entry.path) = none →
      (registerGo entry arts).2 = entry ∧
      (registerGo entry arts).1 = arts ++ [entry]) := by
  induction arts with
  | nil => simp [registerGo, List.find?]
  | cons a rest ih =>
    by_cases h : a.path = entry.path
    · constructor
      · intro prev hfind
        rw [List.find?_cons_of_pos _ (by simpa using h)] at hfind
        cases hfind
        simp [registerGo, h]
      · intro hfind
        rw [List.find?_cons_of_pos _ (by simpa using h)] at hfind
        cases hfind
    · rw [List.find?_cons_of_neg _ (by simpa using h)]
      constructor
      · intro prev hfind
        have := ih.1 prev hfind
        simp only [registerGo, if_neg h]
        exact ⟨this.1, by simpa using this.2⟩
      · intro hfind
        have := ih.2 hfind
        simp only [registerGo, if_neg h]
        exact ⟨this.1, by simp [this.2]⟩

/-- **C7** (provider resolution).  `ProviderFactory.createProvider` resolves
its identifier case-insensitively: `claude`/`anthropic` yield the Claude
client, `gpt`/`openai` the OpenAI client, `gemini`/`google` the Gemini
client, and every other identifier throws the named
`Unsupported LLM provider` error. -/
theorem provider_resolution (s : String) :
    (createProvider s = .ok .claude ↔
      (s.toLower = "anthropic" ∨ s.toLower = "claude")) ∧
    (createProvider s = .ok .openai ↔
      (s.toLower = "openai" ∨ s.toLower = "gpt")) ∧
    (createProvider s = .ok .gemini ↔
      (s.toLower = "google" ∨ s.toLower = "gemini")) ∧
    (createProvider s = .error ("Unsupported LLM provider: " ++ s) ↔
      ¬ s.toLower ∈ getSupportedProviders) := by
  by_cases h1 : s.toLower = "anthropic" ∨ s.toLower = "claude"
  · simp only [createProvider, if_pos h1]
    rcases h1 with h | h <;> simp [getSupportedProviders, h]
  · by_cases h2 : s.toLower = "openai" ∨ s.toLower = "gpt"
    · simp only [createProvider, if_neg h1, if_pos h2]
      rcases h2 with h | h <;> simp [getSupportedProviders, h, h1]
    · by_cases h3 : s.toLower = "google" ∨ s.toLower = "gemini"
      · simp only [createProvider, if_neg h1, if_neg h2, if_pos h3]
        rcases h3 with h | h <;> simp [getSupportedProviders, h, h1, h2]
      · simp only [createProvider, if_neg h1, if_neg h2, if_neg h3]
        simp [getSupportedProviders]
        tauto

/-- **C9** (sendMessage is not atomic on error).  When the provider call
throws, `BaseAgent.sendMessage` re-throws the error but the user message
pushed before the call stays in the conversation history, which therefore
grows by exactly one message; a successful call grows it by two. -/
theorem sendMessage_failure_keeps_user_message (history : List Message)
    (userMessage : String) (e : String) (resp : ProviderResponse) :
    (sendMessage history userMessage (.error e)).1 = .error e ∧
    (sendMessage history userMessage (.error e)).2 =
      history ++ [⟨"user", userMessage⟩] ∧
    (sendMessage history userMessage (.error e)).2.length =
      history.length + 1 ∧
    (sendMessage history userMessage (.ok resp)).2.length =
      history.length + 2 := by
  simp [sendMessage]

/-- **C2, counterexample**.  The claim says the effective configuration
takes every field from a present override field, `maxTokens` and
`temperature` included; but with the primary `c2Primary` and the override
`c2Override` (which sets `max_tokens := 1024` and `temperature := 1/5`),
`BaseAgent._initializeProvider` keeps the primary's `maxTokens = 8192` and
`temperature = 7/10`. -/
theorem config_override_counterexample :
    c2Override.max_tokens = some 1024 ∧
    c2Override.temperature = some ((1 : ℚ)/5) ∧
    (initializeProvider c2Primary (some c2Override)).maxTokens = 8192 ∧
    (initializeProvider c2Primary (some c2Override)).temperature = (7 : ℚ)/10 ∧
    (8192 : Nat) ≠ 1024 ∧ ((7 : ℚ)/10) ≠ (1 : ℚ)/5 := by
  refine ⟨rfl, rfl, rfl, rfl, by decide, by norm_num⟩

/-- **C2, amended** (config override precedence).  When a role override with
its `provider` field set is present, the effective configuration takes
`provider`, `apiKey`, `baseUrl` and `model` from the override with
field-by-field fallback to the primary configuration, while `maxTokens` and
`temperature` are always taken from the primary configuration; an override
whose `provider` field is unset is ignored entirely. -/
theorem config_override_precedence (p : ProviderConfig) (t : TaskOverride)
    (h : t.provider.isSome = true) :
    (initializeProvider p (some t)).provider = t.provider.getD p.provider ∧
    (initializeProvider p (some t)).apiKey = t.api_key.getD p.apiKey ∧
    (initializeProvider p (some t)).baseUrl = t.base_url.getD p.baseUrl ∧
    (initializeProvider p (some t)).model = t.model.getD p.model ∧
    (initializeProvider p (some t)).maxTokens = p.maxTokens ∧
    (initializeProvider p (some t)).temperature = p.temperature := by
  simp [initializeProvider, h]

/-- Witness for `config_override_precedence` at the concrete primary
configuration and override. -/
theorem config_override_precedence_witness :
    (initializeProvider c2Primary (some c2Override)).provider = "openai" ∧
    (initializeProvider c2Primary (some c2Override)).apiKey = "sk-primary" ∧
    (initializeProvider c2Primary (some c2Override)).baseUrl =
      "https://api.anthropic.com" ∧
    (initializeProvider c2Primary (some c2Override)).model = "gpt-4" ∧
    (initializeProvider c2Primary (some c2Override)).maxTokens = 8192 ∧
    (initializeProvider c2Primary (some c2Override)).temperature = (7 : ℚ)/10 :=
  config_override_precedence c2Primary c2Override rfl

/-- **C8, counterexample**.  Clone identifiers are not unique within the
registry: two clones spawned with the same mode during the same
`Date.now()` millisecond receive identical identifiers even though they are
distinct registry entries. -/
theorem clone_identifier_counterexample :
    spawnMany [] [("modeler", "task A", 1000), ("modeler", "task B", 1000)] =
      [⟨"modeler-1000", "modeler", "task A", "running"⟩,
       ⟨"modeler-1000", "modeler", "task B", "running"⟩] ∧
    (⟨"modeler-1000", "modeler", "task A", "running"⟩ : CloneEntry) ≠
      ⟨"modeler-1000", "modeler", "task B", "running"⟩ ∧
    (⟨"modeler-1000", "modeler", "task A", "running"⟩ : CloneEntry).id =
      (⟨"modeler-1000", "modeler", "task B", "running"⟩ : CloneEntry).id := by
  refine ⟨by decide, by decide, rfl⟩

/-- **C8, amended** (clone identifier derivation).  Every clone recorded by
`MasterAgent.spawnClone` gets the identifier `mode ++ "-" ++ Date.now()`
and status `running`, appended to the registry in spawn order; identifiers
are therefore unique only as long as no two clones share both the mode and
the spawn millisecond, and uniqueness is not an invariant of the registry. -/
theorem clone_identifier_derivation (clones : List CloneEntry)
    (specs : List (String × String × Nat)) :
    spawnMany clones specs =
      clones ++ specs.map (fun s =>
        ⟨s.1 ++ "-" ++ toString s.2.2, s.1, s.2.1, "running"⟩) := by
  induction specs generalizing clones with
  | nil => simp [spawnMany]
  | cons hd tl ih =>
    obtain ⟨mode, task, now⟩ := hd
    simp [spawnMany, spawnClone, ih]

/-- **C1** (artifact versioning monotonicity).  `ArtifactStore.register`
updates in place — with `version = previous.version + 1` and the original
`id` — the record whose storage path already exists in the index, and
otherwise appends a new record with `version = 1` and the freshly generated
id; consequently two consecutive `saveArtifact` calls reusing the same name
return version numbers that increase by exactly 1 with a stable id, so any
sequence of same-name saves observes versions strictly increasing by 1
under a stable id. -/
theorem artifact_versioning_monotonicity :
    (∀ (arts : List ArtifactEntry)
       (name ty path description generatedBy : String)
       (metadata : List (String × String)) (genId timestamp : String),
      (∀ prev, arts.find? (fun a => a.path == path) = some prev →
        (register arts name ty path description generatedBy metadata genId
            timestamp).2.version = prev.version + 1 ∧
        (register arts name ty path description generatedBy metadata genId
            timestamp).2.id = prev.id ∧
        (register arts name ty path description generatedBy metadata genId
            timestamp).1.length = arts.length) ∧
      (arts.find? (fun a => a.path == path) = none →
        (register arts name ty path description generatedBy metadata genId
            timestamp).2.version = 1 ∧
        (register arts name ty path description generatedBy metadata genId
            timestamp).2.id = genId ∧
        (register arts name ty path description generatedBy metadata genId
            timestamp).1 =
          arts ++ [(register arts name ty path description generatedBy
            metadata genId timestamp).2])) ∧
    (∀ (st : StoreState) (artifactsPath : String) (b1 b2 : SaveBody)
       (g1 t1 g2 t2 : String), b2.name = b1.name →
      (saveArtifact (saveArtifact st artifactsPath b1 g1 t1).1 artifactsPath
          b2 g2 t2).2.1.version =
        (saveArtifact st artifactsPath b1 g1 t1).2.1.version + 1 ∧
      (saveArtifact (saveArtifact st artifactsPath b1 g1 t1).1 artifactsPath
          b2 g2 t2).2.1.id =
        (saveArtifact st artifactsPath b1 g1 t1).2.1.id) := by
  constructor
  · intro arts name ty path description generatedBy metadata genId timestamp
    have hs := registerGo_spec
      ⟨genId, name, ty, path, description, generatedBy, metadata, timestamp, 1⟩
      arts
    constructor
    · intro prev hfind
      have h1 := hs.1 prev hfind
      have e1 : (register arts name ty path description generatedBy metadata
          genId timestamp) =
          registerGo ⟨genId, name, ty, path, description, generatedBy,
            metadata, timestamp, 1⟩ arts := rfl
      refine ⟨?_, ?_, ?_⟩
      · rw [e1, h1.1]
      · rw [e1, h1.1]
      · rw [e1]; exact h1.2
    · intro hfind
      have h2 := hs.2 hfind
      have e1 : (register arts name ty path description generatedBy metadata
          genId timestamp) =
          registerGo ⟨genId, name, ty, path, description, generatedBy,
            metadata, timestamp, 1⟩ arts := rfl
      refine ⟨?_, ?_, ?_⟩
      · rw [e1, h2.1]
      · rw [e1, h2.1]
      · rw [e1, h2.2, h2.1]
  · intro st artifactsPath b1 b2 g1 t1 g2 t2 hname
    obtain ⟨n2, ty2, c2, d2, gb2, md2⟩ := b2
    simp only at hname
    subst hname
    have hfind := find?_registerGo
      ⟨g1, b1.name, b1.type, artifactsPath ++ "/" ++ b1.name, b1.description,
        b1.generatedBy, b1.metadata, t1, 1⟩ st.artifacts
    have hspec := (registerGo_spec
      ⟨g2, b1.name, ty2, artifactsPath ++ "/" ++ b1.name, d2, gb2, md2, t2, 1⟩
      (registerGo ⟨g1, b1.name, b1.type, artifactsPath ++ "/" ++ b1.name,
        b1.description, b1.generatedBy, b1.metadata, t1, 1⟩ st.artifacts).1).1
      _ hfind
    constructor
    · simp only [saveArtifact, register]
      rw [hspec.1]
    · simp only [saveArtifact, register]
      rw [hspec.1]

/-- Witness for `artifact_versioning_monotonicity`: saving `model.py` twice
into an empty store yields versions 1 then 2 with a stable id. -/
theorem artifact_versioning_monotonicity_witness :
    (saveArtifact (saveArtifact ⟨[], []⟩ "ws/artifacts"
        ⟨"model.py", "code", "v1", "", "modeler", []⟩ "id1" "T1").1
      "ws/artifacts" ⟨"model.py", "code", "v2", "", "modeler", []⟩
      "id2" "T2").2.1.version =
      (saveArtifact ⟨[], []⟩ "ws/artifacts"
        ⟨"model.py", "code", "v1", "", "modeler", []⟩ "id1" "T1").2.1.version
        + 1 ∧
    (saveArtifact (saveArtifact ⟨[], []⟩ "ws/artifacts"
        ⟨"model.py", "code", "v1", "", "modeler", []⟩ "id1" "T1").1
      "ws/artifacts" ⟨"model.py", "code", "v2", "", "modeler", []⟩
      "id2" "T2").2.1.id = "id1" ∧
    (saveArtifact ⟨[], []⟩ "ws/artifacts"
        ⟨"model.py", "code", "v1", "", "modeler", []⟩ "id1" "T1").2.1.version
      = 1 := by
  have h := artifact_versioning_monotonicity.2 ⟨[], []⟩ "ws/artifacts"
    ⟨"model.py", "code", "v1", "", "modeler", []⟩
    ⟨"model.py", "code", "v2", "", "modeler", []⟩ "id1" "T1" "id2" "T2" rfl
  refine ⟨h.1, ?_, by decide⟩
  rw [h.2]
  decide

/-- **C5** (modeling phase gating).  For a plan that is `null`/`undefined`
(`none`), the empty string, or the literal string `"null"`,
`MasterAgent.executeModelingPhase` throws
`Invalid plan received. Plan is null or empty.` before setting the phase,
spawning any clone, issuing any provider call or saving any artifact; the
`AgentService` wrapper likewise rejects such a plan before calling the
master agent at all, and neither layer retries: the master agent is called
at most once per facade invocation. -/
theorem modeling_phase_gating (plan : Option String)
    (h : planInvalid plan = true) :
    planInvalid none = true ∧ planInvalid (some "") = true ∧
    planInvalid (some "null") = true ∧
    (∀ rest, masterModelingPhase plan rest =
      (.error "Invalid plan received. Plan is null or empty.",
        ⟨false, 0, 0, 0⟩)) ∧
    (∀ st rest, serviceModelingPhase true st plan rest =
      (.error "No plan provided. Please complete planning phase first.", st, 0,
        ⟨false, 0, 0, 0⟩)) ∧
    (∀ hasMaster st plan' rest,
      (serviceModelingPhase hasMaster st plan' rest).2.2.1 ≤ 1) := by
  refine ⟨rfl, rfl, rfl, ?_, ?_, ?_⟩
  · intro rest
    simp [masterModelingPhase, h]
  · intro st rest
    simp [serviceModelingPhase, h]
  · intro hasMaster st plan' rest
    cases hasMaster with
    | false => simp [serviceModelingPhase]
    | true =>
      by_cases hp : planInvalid plan' = true
      · simp [serviceModelingPhase, hp]
      · simp only [serviceModelingPhase, Bool.not_true, Bool.false_eq_true,
          if_false, hp]
        split <;> simp

/-- Witness for `modeling_phase_gating` at the literal plan `"null"` and
concrete continuation/state. -/
theorem modeling_phase_gating_witness :
    masterModelingPhase (some "null") (.ok "model text", ⟨true, 1, 1, 1⟩) =
      (.error "Invalid plan received. Plan is null or empty.",
        ⟨false, 0, 0, 0⟩) ∧
    serviceModelingPhase true ⟨"idle", false, []⟩ (some "null")
        (.ok "model text", ⟨true, 1, 1, 1⟩) =
      (.error "No plan provided. Please complete planning phase first.",
        ⟨"idle", false, []⟩, 0, ⟨false, 0, 0, 0⟩) := by
  have h := modeling_phase_gating (some "null") rfl
  exact ⟨h.2.2.2.1 _, h.2.2.2.2.1 _ _⟩

/-- **C10** (writing phase always resets the facade phase).  Whatever the
master agent's writing call settles to, `AgentService.executeWritingPhase`
leaves `currentPhase = "idle"` and has emitted a `phase-change idle`
notification, because the reset runs in its `finally` block; by contrast a
failed `executeModelingPhase` leaves `currentPhase = "modeling"`. -/
theorem writing_phase_resets_idle (st st' : SvcState)
    (masterResult : Except String String) (plan : Option String) (e : String)
    (tr : MTrace) (hplan : planInvalid plan = false) :
    (serviceWritingPhase true st masterResult).2.currentPhase = "idle" ∧
    SvcEvent.phaseChange "idle" ∈ (serviceWritingPhase true st masterResult).2.events ∧
    (serviceModelingPhase true st' plan (.error e, tr)).2.1.currentPhase =
      "modeling" := by
  refine ⟨?_, ?_, ?_⟩
  · cases masterResult <;> rfl
  · cases masterResult <;> simp [serviceWritingPhase]
  · simp [serviceModelingPhase, masterModelingPhase, hplan]

/-- Witness for `writing_phase_resets_idle`: a failing writing call on a
concrete facade state still ends at phase `idle`, while a failing modeling
call on a valid plan ends at phase `modeling`. -/
theorem writing_phase_resets_idle_witness :
    (serviceWritingPhase true ⟨"writing", true, []⟩
        (.error "boom")).2.currentPhase = "idle" ∧
    SvcEvent.phaseChange "idle" ∈
      (serviceWritingPhase true ⟨"writing", true, []⟩ (.error "boom")).2.events ∧
    (serviceModelingPhase true ⟨"idle", false, []⟩ (some "an approved plan")
        (.error "boom", ⟨true, 1, 1, 0⟩)).2.1.currentPhase = "modeling" :=
  writing_phase_resets_idle ⟨"writing", true, []⟩ ⟨"idle", false, []⟩
    (.error "boom") (some "an approved plan") "boom" ⟨true, 1, 1, 0⟩ rfl

/-- When every underlying planning call fails, the retry loop entered at
`attempt` (with `attempt + d = retries`) makes `d + 1` further calls,
surfaces the error of the last attempt, and emits exactly one `error`
notification. -/
lemma planningLoop_allFail (msgs : Nat → String) (retries : Nat) :
    ∀ d attempt, attempt + d = retries →
      (planningLoop (fun k => .error (msgs k)) retries attempt).1 =
        .error (msgs retries) ∧
      (planningLoop (fun k => .error (msgs k)) retries attempt).2.1 = d + 1 ∧
      (planningLoop (fun k => .error (msgs k)) retries attempt).2.2.count
        SvcEvent.errorEvent = 1 := by
  intro d
  induction d with
  | zero =>
    intro attempt h
    have ha : attempt = retries := by omega
    subst ha
    rw [planningLoop]
    simp only [dif_pos (le_refl attempt)]
    rw [dif_pos (by omega : attempt + 1 > attempt)]
    by_cases h0 : attempt > 0 <;>
      simp [h0, List.count_append, List.count_cons]
  | succ d ih =>
    intro attempt h
    have h1 : attempt ≤ retries := by omega
    have h2 : ¬ attempt + 1 > retries := by omega
    obtain ⟨ih1, ih2, ih3⟩ := ih (attempt + 1) (by omega)
    rw [planningLoop]
    simp only [dif_pos h1]
    rw [dif_neg h2]
    refine ⟨ih1, by simpa using ih2, ?_⟩
    by_cases h0 : attempt > 0 <;>
      simp [h0, List.count_append, List.count_cons, ih3]

/-- **C3** (retry bound for the planning facade).  When the underlying
`masterAgent.executePlanningPhase` call always fails,
`AgentService.executePlanningPhase` makes exactly `retries + 1` underlying
attempts (`retries = 2` by default), re-throws the final attempt's error,
and emits exactly one `error` notification event — not one per attempt. -/
theorem planning_retry_bound (msgs : Nat → String) (retries : Nat) :
    (executePlanningPhaseSvc (fun k => .error (msgs k)) retries).1 =
      .error (msgs retries) ∧
    (executePlanningPhaseSvc (fun k => .error (msgs k)) retries).2.1 =
      retries + 1 ∧
    (executePlanningPhaseSvc (fun k => .error (msgs k)) retries).2.2.count
      SvcEvent.errorEvent = 1 := by
  have h := planningLoop_allFail msgs retries retries 0 (by omega)
  exact ⟨h.1, by rw [show executePlanningPhaseSvc (fun k => .error (msgs k))
    retries = planningLoop (fun k => .error (msgs k)) retries 0 from rfl,
    h.2.1], h.2.2⟩

/-- `Math.ceil(w / 450)` as integer arithmetic. -/
lemma nat_ceil_div_450 (w : Nat) :
    Nat.ceil ((w : ℚ) / 450) = (w + 449) / 450 := by
  apply le_antisymm
  · rw [Nat.ceil_le, div_le_iff₀ (by norm_num : (0:ℚ) < 450)]
    have hb : w ≤ (w + 449) / 450 * 450 := by
      have h1 := Nat.div_add_mod (w + 449) 450
      have h2 := Nat.mod_lt (w + 449) (by norm_num : 0 < 450)
      omega
    calc (w : ℚ) ≤ (((w + 449) / 450 * 450 : ℕ) : ℚ) := by exact_mod_cast hb
      _ = (((w + 449) / 450 : ℕ) : ℚ) * 450 := by push_cast; ring
  · have hc := Nat.le_ceil ((w : ℚ) / 450)
    rw [div_le_iff₀ (by norm_num : (0:ℚ) < 450)] at hc
    have hn : w ≤ Nat.ceil ((w : ℚ) / 450) * 450 := by exact_mod_cast hc
    calc (w + 449) / 450 ≤ (Nat.ceil ((w:ℚ)/450) * 450 + 449) / 450 :=
          Nat.div_le_div_right (by omega)
      _ = Nat.ceil ((w:ℚ)/450) := by
          have he : Nat.ceil ((w:ℚ)/450) * 450 + 449 =
              449 + 450 * Nat.ceil ((w:ℚ)/450) := by ring
          rw [he, Nat.add_mul_div_left _ _ (by norm_num : 0 < 450)]
          norm_num

/-- The completeness verdict of the validator, spelled out. -/
lemma validate_isComplete_def (s : String) :
    (validatePaperCompleteness s).isComplete =
      (decide ((validatePaperCompleteness s).estimatedPages ≥ 12) &&
       decide ((validatePaperCompleteness s).figureCount ≥ 4) &&
       (validatePaperCompleteness s).hasExperimentalSection) := rfl

/-- The page estimate of the validator, spelled out. -/
lemma validate_pages_def (s : String) :
    (validatePaperCompleteness s).estimatedPages =
      Nat.ceil ((wordCountJs s : ℚ) / 450) := rfl

/-- **C4** (paper completeness policy).  The validator judges a LaTeX
document complete iff the estimated page count (which equals
`ceil(wordCount / 450)` — with integer arithmetic, `(wordCount + 449) / 450`)
is at least 12, the count of `figure` environments is at least 4, and an
experimental/results/validation section heading is present; when the
document is judged incomplete exactly one expansion request is issued and
its result unconditionally replaces the document, with no further
iteration, and a complete document triggers no expansion. -/
theorem paper_completeness_policy (latex expanded : String) :
    ((validatePaperCompleteness latex).isComplete = true ↔
      ((validatePaperCompleteness latex).estimatedPages ≥ 12 ∧
       (validatePaperCompleteness latex).figureCount ≥ 4 ∧
       (validatePaperCompleteness latex).hasExperimentalSection = true)) ∧
    (validatePaperCompleteness latex).estimatedPages =
      (wordCountJs latex + 449) / 450 ∧
    writingValidationStep latex expanded =
      (if (validatePaperCompleteness latex).isComplete then (latex, 0)
       else (expanded, 1)) := by
  have hbool : ∀ x y z : Bool, (x || y || !z) = !((!x) && (!y) && z) := by
    decide
  refine ⟨?_, ?_, ?_⟩
  · rw [validate_isComplete_def]
    simp [and_assoc]
  · rw [validate_pages_def]
    exact nat_ceil_div_450 _
  · have e1 : decide ((validatePaperCompleteness latex).estimatedPages ≥ 12) =
        !decide ((validatePaperCompleteness latex).estimatedPages < 12) := by
      by_cases h : (validatePaperCompleteness latex).estimatedPages < 12
      · simp [h, Nat.not_le.mpr h]
      · simp [h, Nat.not_lt.mp h]
    have e2 : decide ((validatePaperCompleteness latex).figureCount ≥ 4) =
        !decide ((validatePaperCompleteness latex).figureCount < 4) := by
      by_cases h : (validatePaperCompleteness latex).figureCount < 4
      · simp [h, Nat.not_le.mpr h]
      · simp [h, Nat.not_lt.mp h]
    have hcond : (decide ((validatePaperCompleteness latex).estimatedPages < 12)
        || decide ((validatePaperCompleteness latex).figureCount < 4)
        || !(validatePaperCompleteness latex).hasExperimentalSection) =
        !(validatePaperCompleteness latex).isComplete := by
      rw [validate_isComplete_def, e1, e2]
      exact hbool _ _ _
    simp only [writingValidationStep]
    rw [hcond]
    cases hb : (validatePaperCompleteness latex).isComplete <;> simp

/-- Characterization of `executeParallelGo` started at index `s`: one
registry entry per task in input order, `completed` exactly for successful
outcomes, and — when every outcome succeeds — a fan-in result list pairing
each task with its own result in input order. -/
lemma executeParallelGo_spec (outcome : Nat → Except String String)
    (times : Nat → Nat) :
    ∀ (ts : List PTask) (s : Nat),
      (executeParallelGo outcome times s ts).1.length = ts.length ∧
      (∀ (i : Nat) (t : PTask), ts[i]? = some t →
        (executeParallelGo outcome times s ts).1[i]? =
          some (⟨t.mode ++ "-" ++ toString (times (s + i)), t.mode, t.task,
            if exceptOk (outcome (s + i)) then "completed" else "running"⟩ :
              CloneEntry)) ∧
      ((∀ i, i < ts.length → exceptOk (outcome (s + i)) = true) →
        ∃ rs, (executeParallelGo outcome times s ts).2 = .ok rs ∧
          rs.length = ts.length ∧
          ∀ (i : Nat) (t : PTask) (v : String), ts[i]? = some t →
            outcome (s + i) = .ok v →
            rs[i]? = some (⟨t.mode, t.task, v⟩ : PTaskResult)) := by
  intro ts
  induction ts with
  | nil =>
    intro s
    refine ⟨rfl, ?_, ?_⟩
    · intro i t h
      simp at h
    · intro _
      refine ⟨[], rfl, rfl, ?_⟩
      intro i t v h
      simp at h
  | cons t rest ih =>
    intro s
    obtain ⟨ih1, ih2, ih3⟩ := ih (s + 1)
    refine ⟨?_, ?_, ?_⟩
    · simp [executeParallelGo, ih1]
    · intro i t' h
      cases i with
      | zero =>
        simp only [List.getElem?_cons_zero, Option.some.injEq] at h
        subst h
        simp [executeParallelGo]
      | succ i =>
        have h' : rest[i]? = some t' := by simpa using h
        have hi := ih2 i t' h'
        have e : s + (i + 1) = s + 1 + i := by omega
        rw [e]
        simpa [executeParallelGo] using hi
    · intro hall
      have h0 : exceptOk (outcome (s + 0)) = true := hall 0 (by simp)
      obtain ⟨v0, hv0⟩ : ∃ v, outcome s = .ok v := by
        cases ho : outcome s with
        | ok v => exact ⟨v, rfl⟩
        | error e =>
          rw [Nat.add_zero, ho] at h0
          simp [exceptOk] at h0
      obtain ⟨rs, hrs, hlen, hidx⟩ := ih3 (by
        intro i hi
        have := hall (i + 1) (by simpa using Nat.succ_lt_succ hi)
        have e : s + (i + 1) = s + 1 + i := by omega
        rwa [e] at this)
      refine ⟨⟨t.mode, t.task, v0⟩ :: rs, ?_, by simp [hlen], ?_⟩
      · simp [executeParallelGo, hv0, hrs]
      · intro i t' v h hv
        cases i with
        | zero =>
          simp only [List.getElem?_cons_zero, Option.some.injEq] at h
          subst h
          rw [Nat.add_zero, hv0] at hv
          injection hv with hvv
          subst hvv
          simp
        | succ i =>
          have h' : rest[i]? = some t' := by simpa using h
          have e : s + (i + 1) = s + 1 + i := by omega
          rw [e] at hv
          simpa using hidx i t' v h' hv

/-- **C6, counterexample**.  The claim says every spawned clone's registry
status is set to `completed` on return of its task whether the task
succeeded or failed; but a task whose `sendMessage` rejects skips the
status update, so its clone entry stays `running`. -/
theorem parallel_status_counterexample :
    (executeParallel [] [⟨"modeler", "implement model", "msg"⟩]
        (fun _ => .error "boom") (fun _ => 1000)).1 =
      [⟨"modeler-1000", "modeler", "implement model", "running"⟩] ∧
    (⟨"modeler-1000", "modeler", "implement model", "running"⟩ :
        CloneEntry).status = "running" ∧
    ("running" : String) ≠ "completed" := by
  refine ⟨by decide, rfl, by decide⟩

/-- **C6, amended** (fan-out/fan-in semantics).  `executeParallel` appends
one registry entry per task in the original input order; a clone's status
is `completed` exactly when its task's `sendMessage` resolved, and a failed
task leaves its clone `running` (status tracking IS contingent on success).
When every task succeeds, the fan-in list pairs each result with its
originating task in the original input order regardless of completion
order. -/
theorem parallel_fanout_fanin (clones : List CloneEntry) (tasks : List PTask)
    (outcome : Nat → Except String String) (times : Nat → Nat) :
    (executeParallel clones tasks outcome times).1.length =
      clones.length + tasks.length ∧
    (∀ (i : Nat) (t : PTask), tasks[i]? = some t →
      (executeParallel clones tasks outcome times).1[clones.length + i]? =
        some (⟨t.mode ++ "-" ++ toString (times i), t.mode, t.task,
          if exceptOk (outcome i) then "completed" else "running"⟩ :
            CloneEntry)) ∧
    ((∀ i, i < tasks.length → exceptOk (outcome i) = true) →
      ∃ rs, (executeParallel clones tasks outcome times).2 = .ok rs ∧
        rs.length = tasks.length ∧
        ∀ (i : Nat) (t : PTask) (v : String), tasks[i]? = some t →
          outcome i = .ok v →
          rs[i]? = some (⟨t.mode, t.task, v⟩ : PTaskResult)) := by
  obtain ⟨h1, h2, h3⟩ := executeParallelGo_spec outcome times tasks 0
  refine ⟨?_, ?_, ?_⟩
  · simp [executeParallel, h1]
  · intro i t h
    have hi := h2 i t h
    simp only [executeParallel]
    rw [List.getElem?_append_right (by omega)]
    simpa using hi
  · intro hall
    obtain ⟨rs, hrs, hlen, hidx⟩ := h3 (by simpa using hall)
    exact ⟨rs, by simpa [executeParallel] using hrs, hlen, by simpa using hidx⟩

/-- Witness for `parallel_fanout_fanin`: two successful tasks yield two
`completed` registry entries in input order and an input-ordered fan-in
list. -/
theorem parallel_fanout_fanin_witness :
    ((executeParallel [] [⟨"researcher", "t1", "m1"⟩, ⟨"writer", "t2", "m2"⟩]
        (fun k => .ok (toString k)) (fun k => 500 + k)).1[1]? =
      some ⟨"writer-501", "writer", "t2", "completed"⟩) ∧
    (∃ rs, (executeParallel [] [⟨"researcher", "t1", "m1"⟩, ⟨"writer", "t2", "m2"⟩]
        (fun k => .ok (toString k)) (fun k => 500 + k)).2 = .ok rs ∧
      rs.length = 2 ∧ rs[1]? = some ⟨"writer", "t2", "1"⟩) := by
  have h := parallel_fanout_fanin [] [⟨"researcher", "t1", "m1"⟩,
    ⟨"writer", "t2", "m2"⟩] (fun k => .ok (toString k)) (fun k => 500 + k)
  constructor
  · show (executeParallel [] [⟨"researcher", "t1", "m1"⟩, ⟨"writer", "t2", "m2"⟩]
        (fun k => .ok (toString k)) (fun k => 500 + k)).1[
          List.length ([] : List CloneEntry) + 1]? = _
    rw [h.2.1 1 ⟨"writer", "t2", "m2"⟩ rfl]
    decide
  · obtain ⟨rs, hok, hlen, hidx⟩ := h.2.2 (by decide)
    exact ⟨rs, hok, hlen, hidx 1 ⟨"writer", "t2", "m2"⟩ "1" rfl rfl⟩
